import Mathlib

/-!
Shallow embedding of the JOS-style kernel monitor (src/kern/monitor.c).

Conventions of the embedding:
* C strings (the mutable command buffer, command names, token views) are
  modelled as List Char holding the characters strictly before the NUL
  terminator; the destructive in-place NUL-termination of token boundaries
  is modelled by returning the token slices as independent lists.
* Machine integers (uint32_t addresses, page-table entries, the saved
  EFLAGS register) are modelled as Nat; bit operations use Nat.land /
  Nat.lor with explicit 32-bit masks where the C code relies on the
  register width.
* Console output (cprintf) is modelled as structured message values; the
  exact format strings are irrelevant to the verified properties.
* External collaborators are parameters: pgdir_walk is a function
  Nat → Option Nat (virtual address of a page → its page-table entry, or
  none when the walk finds no entry); env_run / panic are modelled as
  distinguished terminal outcomes of a handler.
* A NULL Trapframe pointer is modelled by Option Trapframe; reading a
  field through a NULL pointer is the distinguished outcome nullDeref.
-/

/-- Trap vector numbers from the x86 trap layout used by inc/trap.h:
vector 1 is the debug/single-step trap, vector 3 the breakpoint trap. -/
def T_DEBUG : Nat := 1

/-- Breakpoint trap vector (int3). -/
def T_BRKPT : Nat := 3

/-- The saved interrupted-execution context, restricted to the two fields
the monitor commands read or write: the trap vector number and the saved
EFLAGS register. -/
structure Trapframe where
  tf_trapno : Nat
  tf_eflags : Nat
deriving Repr, DecidableEq

/-- Console messages emitted by the monitor, one constructor per cprintf
call site relevant to the claims. -/
inductive ConsoleMsg where
  | usageShowmappings
  | rangeError
  | tooManyArgs
  | unknownCmd (name : List Char)
  | usageContinue
  | usageSi
deriving Repr, DecidableEq

/-- Which panic call fired (mon_continue or mon_si). -/
inductive PanicSite where
  | monContinue
  | monSi
deriving Repr, DecidableEq

/-- Outcome of an execution-controller command handler: either it returns
an integer to the dispatcher (with the console messages it printed), or it
halts the kernel via panic, or it transfers control away via env_run
(carrying the possibly mutated saved context), or it dereferences a NULL
context pointer. -/
inductive CtrlResult where
  | ret (msgs : List ConsoleMsg) (r : Int)
  | panicked (site : PanicSite)
  | resumed (tf : Trapframe)
  | nullDeref
deriving Repr, DecidableEq

/-- mon_continue (monitor.c lines 137-158).  Checks argc, then reads
tf->tf_trapno (a NULL dereference when tf is NULL), panics on an
unsupported trap reason, clears bit 8 (the trace flag) of the saved
EFLAGS when the entry reason was T_DEBUG, and resumes.  The C expression
tf_eflags & ~(1 << 8) on a 32-bit register is the Nat mask below. -/
def mon_continue (argc : Nat) (tf : Option Trapframe) : CtrlResult :=
  if argc ≠ 1 then CtrlResult.ret [ConsoleMsg.usageContinue] (-1)
  else
    match tf with
    | Option.none => CtrlResult.nullDeref
    | Option.some t =>
      if t.tf_trapno ≠ T_BRKPT ∧ t.tf_trapno ≠ T_DEBUG then
        CtrlResult.panicked PanicSite.monContinue
      else if t.tf_trapno = T_DEBUG then
        CtrlResult.resumed { t with tf_eflags := t.tf_eflags &&& (0xFFFFFFFF ^^^ (1 <<< 8)) }
      else
        CtrlResult.resumed t

/-- mon_si (monitor.c lines 160-178).  Checks argc, then reads
tf->tf_trapno (a NULL dereference when tf is NULL), panics on an
unsupported trap reason, sets bit 8 (the trace flag, 0x1 << 8) of the
saved EFLAGS unconditionally, and resumes. -/
def mon_si (argc : Nat) (tf : Option Trapframe) : CtrlResult :=
  if argc ≠ 1 then CtrlResult.ret [ConsoleMsg.usageSi] (-1)
  else
    match tf with
    | Option.none => CtrlResult.nullDeref
    | Option.some t =>
      if t.tf_trapno ≠ T_BRKPT ∧ t.tf_trapno ≠ T_DEBUG then
        CtrlResult.panicked PanicSite.monSi
      else
        CtrlResult.resumed { t with tf_eflags := t.tf_eflags ||| (0x1 <<< 8) }

/-- The NULL check the monitor entry point itself performs before printing
the trapframe (monitor.c lines 233-234): print_trapframe runs only for a
non-NULL context, so entering the monitor with a NULL context is
permitted by the entry path. -/
def monitorPrintsTrapframe (tf : Option Trapframe) : Bool :=
  match tf with
  | Option.none => false
  | Option.some _ => true

/-- Page size, from inc/mmu.h. -/
def PGSIZE : Nat := 4096

/-- ROUNDDOWN(a, n) from inc/types.h: round a down to a multiple of n. -/
def ROUNDDOWN (a n : Nat) : Nat := a / n * n

/-- ROUNDUP(a, n) from inc/types.h: round a up to a multiple of n. -/
def ROUNDUP (a n : Nat) : Nat := ROUNDDOWN (a + n - 1) n

/-- PTE present bit, from inc/mmu.h. -/
def PTE_P : Nat := 0x001

/-- PTE writable bit, from inc/mmu.h. -/
def PTE_W : Nat := 0x002

/-- PTE user-accessible bit, from inc/mmu.h. -/
def PTE_U : Nat := 0x004

/-- PTE_ADDR(pte) from inc/mmu.h: the physical frame address held in a
page-table entry (the entry with its low 12 permission bits masked off,
on a 32-bit entry). -/
def PTE_ADDR (pte : Nat) : Nat := pte &&& 0xFFFFF000

/-- One line of mon_showmappings output (monitor.c lines 118-131): either
the page is reported unmapped, or its physical frame address and the raw
masked values of the three permission bits are reported. -/
inductive MapLine where
  | notMapped (va : Nat)
  | mapped (va pa permP permW permU : Nat)
deriving Repr, DecidableEq

/-- The body of one iteration of the mon_showmappings loop: query
pgdir_walk (modelled by pt) for the page at va and format the line. -/
def pageLine (pt : Nat → Option Nat) (va : Nat) : MapLine :=
  match pt va with
  | Option.none => MapLine.notMapped va
  | Option.some pte =>
      MapLine.mapped va (PTE_ADDR pte) (pte &&& PTE_P) (pte &&& PTE_W) (pte &&& PTE_U)

/-- The modulus of the uint32_t arithmetic of monitor.c: page_addr,
start_addr and end_addr are 32-bit unsigned integers, so the loop
increment page_addr += PGSIZE wraps modulo 2^32. -/
def UINT32_MOD : Nat := 4294967296

/-- The mon_showmappings loop (monitor.c line 115) with the uint32_t wrap
of page_addr += PGSIZE modelled explicitly: the loop variable advances
modulo 2^32, so from the top page (0xFFFFF000) it wraps back to 0.  The
fuel argument bounds how many loop-condition checks are performed:
some vas means the loop terminated within the given fuel, visiting
exactly the addresses vas (each passed to pgdir_walk once, in order);
none means the loop is still running after the fuel was spent.  The real
loop diverges exactly when no fuel suffices (none for every fuel). -/
def loopVAs : Nat → Nat → Nat → Option (List Nat)
  | 0, _, _ => Option.none
  | fuel + 1, page_addr, end_addr =>
    if page_addr < end_addr then
      match loopVAs fuel ((page_addr + PGSIZE) % UINT32_MOD) end_addr with
      | Option.none => Option.none
      | Option.some vas => Option.some (page_addr :: vas)
    else Option.some []

/-- Closed-form page trace for the non-wrapping runs of the loop:
starting from page_addr, step by PGSIZE (without wrap) while strictly
below end_addr.  For end_addr ≤ 0xFFFFF000 the wrap is unreachable and
loopVAs provably terminates with exactly this list. -/
def queriedVAs (page_addr end_addr : Nat) : List Nat :=
  if page_addr < end_addr then page_addr :: queriedVAs (page_addr + PGSIZE) end_addr
  else []
termination_by end_addr - page_addr
decreasing_by
  simp [PGSIZE]
  omega

/-- Result of one terminating mon_showmappings invocation: the
error/usage messages printed, the per-page lines printed, the addresses
handed to pgdir_walk, and the handler's integer return value. -/
structure ShowResult where
  msgs : List ConsoleMsg
  lines : List MapLine
  queries : List Nat
  ret : Int
deriving Repr, DecidableEq

/-- mon_showmappings (monitor.c lines 96-135).  The two address arguments
are the uint32_t values strtol parses out of argv[1] and argv[2] (strtol
itself is an external collaborator); argc is the token count of the
command line.  The code also computes ROUNDDOWN(end_addr, PGSIZE) into a
variable end_page, but the loop bound compares the raw end_addr, not
end_page, so end_page is irrelevant to the output.  The fuel argument
bounds the iterations of the per-page loop exactly as in loopVAs: a
some result is the behaviour of a terminated invocation, and none for
every fuel means the invocation never returns (the uint32 loop variable
wraps and the loop condition never fails). -/
def mon_showmappings (fuel : Nat) (argc : Nat) (start_addr end_addr : Nat)
    (pt : Nat → Option Nat) : Option ShowResult :=
  if argc ≠ 3 then Option.some ⟨[ConsoleMsg.usageShowmappings], [], [], -1⟩
  else if end_addr < start_addr then Option.some ⟨[ConsoleMsg.rangeError], [], [], -1⟩
  else
    match loopVAs fuel (ROUNDDOWN start_addr PGSIZE) end_addr with
    | Option.none => Option.none
    | Option.some vas => Option.some ⟨[], vas.map (pageLine pt), vas, 0⟩

/-- The WHITESPACE set of runcmd (monitor.c line 183): tab, carriage
return, newline, space. -/
def WHITESPACE : List Char := ['\t', '\r', '\n', ' ']

/-- strchr(WHITESPACE, c) != NULL for a non-NUL character c. -/
def isWS (c : Char) : Bool := WHITESPACE.contains c

/-- MAXARGS (monitor.c line 184). -/
def MAXARGS : Nat := 16

/-- Outcome of the argument-parsing loop of runcmd (monitor.c lines
193-212): either the ordered list of token views, or the early return
after printing the too-many-arguments message. -/
inductive ParseResult where
  | ok (argv : List (List Char))
  | tooMany
deriving Repr, DecidableEq

/-- The argument-parsing loop of runcmd (monitor.c lines 193-212) as a
left-to-right scan of the buffer.  cur is the portion of the token
currently being scanned (empty when the scanner sits between tokens,
i.e. in the whitespace-gobbling phase); argv is the list of tokens saved
so far.  Exactly as in the C code, the MAXARGS-1 check fires at the
moment a new token starts. -/
def scanArgs : List Char → List Char → List (List Char) → ParseResult
  | [], [], argv => ParseResult.ok argv
  | [], c :: cs, argv => ParseResult.ok (argv ++ [c :: cs])
  | ch :: rest, [], argv =>
    if isWS ch then scanArgs rest [] argv
    else if argv.length = MAXARGS - 1 then ParseResult.tooMany
    else scanArgs rest [ch] argv
  | ch :: rest, c :: cs, argv =>
    if isWS ch then scanArgs rest [] (argv ++ [c :: cs])
    else scanArgs rest (c :: cs ++ [ch]) argv

/-- Modelled from the spec: the whitespace-separated tokens of a line
("For all well-formed lines with N ≥ 1 whitespace-separated tokens"),
with no cap.  Same scan as scanArgs but without the MAXARGS check; this
is the reference splitter that defines the token count N of a line. -/
def wsTokens : List Char → List Char → List (List Char)
  | [], [] => []
  | [], c :: cs => [c :: cs]
  | ch :: rest, [] =>
    if isWS ch then wsTokens rest [] else wsTokens rest [ch]
  | ch :: rest, c :: cs =>
    if isWS ch then (c :: cs) :: wsTokens rest []
    else wsTokens rest (c :: cs ++ [ch])

/-- The names of the static command table (monitor.c lines 29-37):
help, kerninfo, backtrace, showmappings, continue, c, si. -/
def commandNames : List (List Char) :=
  [['h', 'e', 'l', 'p'],
   ['k', 'e', 'r', 'n', 'i', 'n', 'f', 'o'],
   ['b', 'a', 'c', 'k', 't', 'r', 'a', 'c', 'e'],
   ['s', 'h', 'o', 'w', 'm', 'a', 'p', 'p', 'i', 'n', 'g', 's'],
   ['c', 'o', 'n', 't', 'i', 'n', 'u', 'e'],
   ['c'],
   ['s', 'i']]

/-- Result of one runcmd invocation: the dispatcher-level messages it
printed, the name of the command handler it invoked (none when no
handler ran), and its integer return value. -/
structure RunResult where
  msgs : List ConsoleMsg
  invoked : Option (List Char)
  ret : Int
deriving Repr, DecidableEq

/-- runcmd (monitor.c lines 186-223), with the command handlers
abstracted as a function f from the matched name, argc and argv to the
handler's integer return value (the handlers' Trapframe argument does
not influence the dispatch itself).  Tokenize; on overflow print the
too-many-arguments message and return 0; on an empty line return 0; on a
name in the command table invoke its handler and propagate its result;
otherwise print the unknown-command message and return 0.  The command
names are unique, so first-match lookup equals membership. -/
def runcmd (f : List Char → Nat → List (List Char) → Int)
    (buf : List Char) : RunResult :=
  match scanArgs buf [] [] with
  | ParseResult.tooMany => ⟨[ConsoleMsg.tooManyArgs], Option.none, 0⟩
  | ParseResult.ok argv =>
    match argv with
    | [] => ⟨[], Option.none, 0⟩
    | a0 :: rest =>
      if commandNames.contains a0 then
        ⟨[], Option.some a0, f a0 (a0 :: rest).length (a0 :: rest)⟩
      else ⟨[ConsoleMsg.unknownCmd a0], Option.none, 0⟩

/-- The monitor loop's exit test (monitor.c line 240): the while(1) loop
breaks exactly when runcmd's result is negative (the C test is
runcmd(buf, tf) < 0, not a comparison with -1). -/
def monitorExits (r : Int) : Bool := decide (r < 0)

/-- The mon_showmappings loop visits ceil((end - page_addr) / PGSIZE)
pages (with truncated Nat subtraction, so zero when the raw end does not
exceed the rounded-down start). -/
theorem queriedVAs_length_aux : ∀ (gas p e : Nat), e - p ≤ gas →
    (queriedVAs p e).length = (e - p + (PGSIZE - 1)) / PGSIZE := by
  intro gas
  induction gas with
  | zero =>
    intro p e h
    unfold queriedVAs
    have hpe : ¬ p < e := by omega
    simp [hpe, PGSIZE]
    omega
  | succ n ih =>
    intro p e h
    unfold queriedVAs
    by_cases hpe : p < e
    · rw [if_pos hpe, List.length_cons, ih (p + PGSIZE) e (by simp [PGSIZE]; omega)]
      simp only [PGSIZE]
      omega
    · rw [if_neg hpe]
      simp [PGSIZE]
      omega

/-- Closed form for the number of loop iterations of a non-wrapping run
of the mon_showmappings loop. -/
theorem queriedVAs_length (p e : Nat) :
    (queriedVAs p e).length = (e - p + (PGSIZE - 1)) / PGSIZE :=
  queriedVAs_length_aux (e - p) p e (Nat.le_refl _)

/-- For an end address of at most 0xFFFFF000 the loop variable never
wraps: whenever the fuel exceeds the page count of the range, the loop
terminates and visits exactly the closed-form page trace. -/
theorem loopVAs_no_wrap : ∀ (fuel p e : Nat), e ≤ 0xFFFFF000 →
    (e - p + (PGSIZE - 1)) / PGSIZE < fuel →
    loopVAs fuel p e = Option.some (queriedVAs p e) := by
  intro fuel
  induction fuel with
  | zero =>
    intro p e he hf
    exact absurd hf (Nat.not_lt_zero _)
  | succ n ih =>
    intro p e he hf
    by_cases hpe : p < e
    · have hnw : (p + PGSIZE) % UINT32_MOD = p + PGSIZE := by
        simp only [PGSIZE, UINT32_MOD]
        omega
      have hcount : (e - (p + PGSIZE) + (PGSIZE - 1)) / PGSIZE < n := by
        simp only [PGSIZE] at hf ⊢
        omega
      have hq : queriedVAs p e = p :: queriedVAs (p + PGSIZE) e := by
        rw [queriedVAs, if_pos hpe]
      rw [hq, loopVAs, if_pos hpe, hnw, ih (p + PGSIZE) e he hcount]
    · rw [loopVAs, if_neg hpe, queriedVAs, if_neg hpe]

/-- For an end address strictly above 0xFFFFF000 (necessarily unaligned,
as all uint32 values are below 2^32) and a page-aligned loop start, the
loop never terminates: every visited page stays below the end address,
the top page 0xFFFFF000 wraps to 0, and no amount of fuel completes the
loop. -/
theorem loopVAs_wrap_diverges : ∀ (fuel p e : Nat), p % PGSIZE = 0 →
    p < UINT32_MOD → 0xFFFFF000 < e → e < UINT32_MOD →
    loopVAs fuel p e = Option.none := by
  intro fuel
  induction fuel with
  | zero => intro p e hp hp32 he he32; rfl
  | succ n ih =>
    intro p e hp hp32 he he32
    have hpe : p < e := by
      simp only [PGSIZE] at hp
      simp only [UINT32_MOD] at hp32
      omega
    rw [loopVAs, if_pos hpe,
      ih ((p + PGSIZE) % UINT32_MOD) e
        (by simp only [PGSIZE, UINT32_MOD] at hp ⊢; omega)
        (by simp only [UINT32_MOD]; omega) he he32]

/-- A scan state that sits inside a token yields at least one token. -/
theorem wsTokens_length_pos : ∀ (buf : List Char) (c : Char) (cs : List Char),
    1 ≤ (wsTokens buf (c :: cs)).length := by
  intro buf
  induction buf with
  | nil => intro c cs; simp [wsTokens]
  | cons ch rest ih =>
    intro c cs
    by_cases hw : isWS ch
    · simp [wsTokens, hw]
    · rw [wsTokens, if_neg hw]
      exact ih c (cs ++ [ch])

/-- Every whitespace-separated token of a line is non-empty. -/
theorem wsTokens_ne_nil : ∀ (buf cur : List Char), ∀ t ∈ wsTokens buf cur, t ≠ [] := by
  intro buf
  induction buf with
  | nil =>
    intro cur t ht
    match cur with
    | [] => simp [wsTokens] at ht
    | c :: cs =>
      simp [wsTokens] at ht
      simp [ht]
  | cons ch rest ih =>
    intro cur t ht
    match cur with
    | [] =>
      by_cases hw : isWS ch
      · exact ih [] t (by rw [wsTokens, if_pos hw] at ht; exact ht)
      · exact ih [ch] t (by rw [wsTokens, if_neg hw] at ht; exact ht)
    | c :: cs =>
      by_cases hw : isWS ch
      · rw [wsTokens, if_pos hw] at ht
        rcases List.mem_cons.mp ht with h1 | h2
        · simp [h1]
        · exact ih [] t h2
      · rw [wsTokens, if_neg hw] at ht
        exact ih (c :: cs ++ [ch]) t ht

/-- When the tokens already saved plus the tokens still to come stay
within MAXARGS - 1, the parsing loop of runcmd completes and returns all
tokens in order. -/
theorem scanArgs_ok_of_le : ∀ (buf cur : List Char) (argv : List (List Char)),
    argv.length + (wsTokens buf cur).length ≤ MAXARGS - 1 →
    scanArgs buf cur argv = ParseResult.ok (argv ++ wsTokens buf cur) := by
  intro buf
  induction buf with
  | nil =>
    intro cur argv h
    match cur with
    | [] => simp [scanArgs, wsTokens]
    | c :: cs => simp [scanArgs, wsTokens]
  | cons ch rest ih =>
    intro cur argv h
    match cur with
    | [] =>
      by_cases hw : isWS ch
      · rw [scanArgs, if_pos hw]
        rw [wsTokens, if_pos hw] at h ⊢
        exact ih [] argv h
      · rw [wsTokens, if_neg hw] at h ⊢
        have hpos := wsTokens_length_pos rest ch []
        have hne : ¬ argv.length = MAXARGS - 1 := by
          simp [MAXARGS] at h ⊢
          omega
        rw [scanArgs, if_neg hw, if_neg hne]
        exact ih [ch] argv h
    | c :: cs =>
      by_cases hw : isWS ch
      · rw [scanArgs, if_pos hw]
        rw [wsTokens, if_pos hw] at h ⊢
        rw [ih [] (argv ++ [c :: cs]) (by simp at h ⊢; omega)]
        simp
      · rw [scanArgs, if_neg hw]
        rw [wsTokens, if_neg hw] at h ⊢
        exact ih (c :: cs ++ [ch]) argv h

/-- When the total token count reaches MAXARGS (from a reachable scan
state), the parsing loop of runcmd aborts with the too-many-arguments
outcome: the cap check fires at the start of the token that would make
the saved count exceed MAXARGS - 1. -/
theorem scanArgs_tooMany_of_ge : ∀ (buf cur : List Char) (argv : List (List Char)),
    MAXARGS ≤ argv.length + (wsTokens buf cur).length →
    argv.length + (if cur = [] then 0 else 1) ≤ MAXARGS - 1 →
    scanArgs buf cur argv = ParseResult.tooMany := by
  intro buf
  induction buf with
  | nil =>
    intro cur argv h hinv
    match cur with
    | [] => simp [wsTokens, MAXARGS] at h hinv; omega
    | c :: cs => simp [wsTokens, MAXARGS] at h hinv; omega
  | cons ch rest ih =>
    intro cur argv h hinv
    match cur with
    | [] =>
      by_cases hw : isWS ch
      · rw [scanArgs, if_pos hw]
        rw [wsTokens, if_pos hw] at h
        exact ih [] argv h hinv
      · rw [wsTokens, if_neg hw] at h
        by_cases hcap : argv.length = MAXARGS - 1
        · rw [scanArgs, if_neg hw, if_pos hcap]
        · rw [scanArgs, if_neg hw, if_neg hcap]
          refine ih [ch] argv h ?_
          simp [MAXARGS] at hinv hcap ⊢
          omega
    | c :: cs =>
      by_cases hw : isWS ch
      · rw [scanArgs, if_pos hw]
        rw [wsTokens, if_pos hw] at h
        refine ih [] (argv ++ [c :: cs]) (by simp at h ⊢; omega) ?_
        simp [MAXARGS] at hinv ⊢
        omega
      · rw [scanArgs, if_neg hw]
        rw [wsTokens, if_neg hw] at h
        refine ih (c :: cs ++ [ch]) argv h ?_
        simpa using hinv

/-- Claim C1 counterexample: inside the monitor loop, a command handler
returning -2 (a negative value other than -1) makes the loop exit, since
the loop test at monitor.c line 240 is runcmd(buf, tf) < 0; the claim
that exactly the literal -1 exits and every other negative result
continues is therefore false. -/
theorem monitor_loop_exits_on_minus_two :
    (runcmd (fun _ _ _ => (-2 : Int)) (['h', 'e', 'l', 'p'])).invoked
        = Option.some (['h', 'e', 'l', 'p']) ∧
    (runcmd (fun _ _ _ => (-2 : Int)) (['h', 'e', 'l', 'p'])).ret = -2 ∧
    monitorExits (-2) = true ∧ ¬ ((-2 : Int) = -1) := by decide

/-- Claim C1 (amended): for every command handler invocation inside the
monitor loop, the dispatcher propagates the handler's integer result, and
the loop exits if and only if that result is negative; every non-negative
result causes the loop to continue to the next line. -/
theorem monitor_loop_exit_iff_negative
    (f : List Char → Nat → List (List Char) → Int) (buf a0 : List Char)
    (rest : List (List Char))
    (hok : scanArgs buf [] [] = ParseResult.ok (a0 :: rest))
    (hcmd : commandNames.contains a0 = true) :
    (runcmd f buf).invoked = Option.some a0 ∧
    (runcmd f buf).ret = f a0 (a0 :: rest).length (a0 :: rest) ∧
    (monitorExits (runcmd f buf).ret = true ↔ (runcmd f buf).ret < 0) := by
  have hmem : a0 ∈ commandNames := by simpa using hcmd
  unfold runcmd
  rw [hok]
  simp [hmem, monitorExits]

/-- Claim C1 witness: the command line "c" dispatches to a handler in the
command table, so the amended theorem applies to it. -/
theorem monitor_loop_exit_iff_negative_witness :
    scanArgs (['c']) [] [] = ParseResult.ok [['c']] ∧
    commandNames.contains (['c']) = true ∧
    ((runcmd (fun _ _ _ => (-1 : Int)) (['c'])).invoked = Option.some (['c']) ∧
     (runcmd (fun _ _ _ => (-1 : Int)) (['c'])).ret
        = (fun _ _ _ => (-1 : Int)) (['c']) ([['c']] : List (List Char)).length [['c']] ∧
     (monitorExits (runcmd (fun _ _ _ => (-1 : Int)) (['c'])).ret = true
        ↔ (runcmd (fun _ _ _ => (-1 : Int)) (['c'])).ret < 0)) :=
  ⟨by decide, by decide,
   monitor_loop_exit_iff_negative (fun _ _ _ => (-1 : Int)) (['c']) (['c']) []
     (by decide) (by decide)⟩

/-- Claim C2 counterexample: a line of 16 whitespace-separated tokens
(within the claimed bound N ≤ 16) does not tokenize successfully; the
parse aborts with the too-many-arguments error, because the cap check
argc == MAXARGS - 1 fires when the 16th token starts. -/
theorem tokenize_sixteen_tokens_errors :
    (wsTokens (['a', ' ', 'a', ' ', 'a', ' ', 'a', ' ', 'a', ' ', 'a', ' ',
                'a', ' ', 'a', ' ', 'a', ' ', 'a', ' ', 'a', ' ', 'a', ' ',
                'a', ' ', 'a', ' ', 'a', ' ', 'a']) []).length = 16 ∧
    scanArgs (['a', ' ', 'a', ' ', 'a', ' ', 'a', ' ', 'a', ' ', 'a', ' ',
               'a', ' ', 'a', ' ', 'a', ' ', 'a', ' ', 'a', ' ', 'a', ' ',
               'a', ' ', 'a', ' ', 'a', ' ', 'a']) [] [] = ParseResult.tooMany := by
  decide

/-- Claim C2 (amended): for every input line containing N
whitespace-separated tokens with 1 ≤ N ≤ 15 (whitespace set tab,
carriage-return, newline, space), tokenization produces exactly the N
non-empty token views in original left-to-right order with no error
message; a line of 16 or more tokens takes the too-many-arguments error
path instead. -/
theorem tokenize_ok_up_to_fifteen (buf : List Char)
    (h1 : 1 ≤ (wsTokens buf []).length) (h2 : (wsTokens buf []).length ≤ 15) :
    scanArgs buf [] [] = ParseResult.ok (wsTokens buf []) ∧
      ∀ t ∈ wsTokens buf [], t ≠ [] := by
  refine ⟨?_, wsTokens_ne_nil buf []⟩
  have h := scanArgs_ok_of_le buf [] [] (by simp [MAXARGS]; omega)
  simpa using h

/-- Claim C2 witness: the two-token line "si 3". -/
theorem tokenize_ok_up_to_fifteen_witness :
    (1 ≤ (wsTokens (['s', 'i', ' ', '3']) []).length ∧
     (wsTokens (['s', 'i', ' ', '3']) []).length ≤ 15) ∧
    (scanArgs (['s', 'i', ' ', '3']) [] []
        = ParseResult.ok (wsTokens (['s', 'i', ' ', '3']) []) ∧
     ∀ t ∈ wsTokens (['s', 'i', ' ', '3']) [], t ≠ []) :=
  ⟨⟨by decide, by decide⟩,
   tokenize_ok_up_to_fifteen (['s', 'i', ' ', '3']) (by decide) (by decide)⟩

/-- Claim C3: for every input line with more than 15 whitespace-separated
tokens, runcmd prints the too-many-arguments message, invokes no command
handler, and returns 0, which the monitor loop treats as continue. -/
theorem runcmd_too_many_args
    (f : List Char → Nat → List (List Char) → Int) (buf : List Char)
    (h : 15 < (wsTokens buf []).length) :
    runcmd f buf = ⟨[ConsoleMsg.tooManyArgs], Option.none, 0⟩ ∧
    monitorExits (runcmd f buf).ret = false := by
  have hs := scanArgs_tooMany_of_ge buf [] [] (by simp [MAXARGS]; omega)
    (by simp [MAXARGS])
  unfold runcmd
  rw [hs]
  simp [monitorExits]

/-- Claim C3 witness: a 16-token line with an arbitrary handler table. -/
theorem runcmd_too_many_args_witness :
    15 < (wsTokens (['a', ' ', 'a', ' ', 'a', ' ', 'a', ' ', 'a', ' ', 'a', ' ',
                     'a', ' ', 'a', ' ', 'a', ' ', 'a', ' ', 'a', ' ', 'a', ' ',
                     'a', ' ', 'a', ' ', 'a', ' ', 'a']) []).length ∧
    (runcmd (fun _ _ _ => (0 : Int))
        (['a', ' ', 'a', ' ', 'a', ' ', 'a', ' ', 'a', ' ', 'a', ' ',
          'a', ' ', 'a', ' ', 'a', ' ', 'a', ' ', 'a', ' ', 'a', ' ',
          'a', ' ', 'a', ' ', 'a', ' ', 'a'])
        = ⟨[ConsoleMsg.tooManyArgs], Option.none, 0⟩ ∧
     monitorExits (runcmd (fun _ _ _ => (0 : Int))
        (['a', ' ', 'a', ' ', 'a', ' ', 'a', ' ', 'a', ' ', 'a', ' ',
          'a', ' ', 'a', ' ', 'a', ' ', 'a', ' ', 'a', ' ', 'a', ' ',
          'a', ' ', 'a', ' ', 'a', ' ', 'a'])).ret = false) :=
  ⟨by decide,
   runcmd_too_many_args (fun _ _ _ => (0 : Int))
     (['a', ' ', 'a', ' ', 'a', ' ', 'a', ' ', 'a', ' ', 'a', ' ',
       'a', ' ', 'a', ' ', 'a', ' ', 'a', ' ', 'a', ' ', 'a', ' ',
       'a', ' ', 'a', ' ', 'a', ' ', 'a']) (by decide)⟩

/-- Claim C4 counterexample: showmappings invoked with the equal, unaligned
bounds 0x1 and 0x1 terminates (fuel 2 suffices) having emitted one
per-page line and performed one page-table query (for page 0), because
the loop starts at the rounded-down start address and compares against
the raw, unrounded end; the claim that an equal-bounds range is always
empty is therefore false. -/
theorem showmappings_equal_bounds_unaligned_line :
    mon_showmappings 2 3 1 1 (fun _ => Option.none)
      = Option.some ⟨[], [MapLine.notMapped 0], [0], 0⟩ := by decide

/-- Claim C4 (amended): for a uint32 address a, showmappings with start
and end address both a emits zero per-page lines and performs zero
page-table queries exactly when a is page-aligned; for an unaligned a
whose end bound does not exceed the top page boundary 0xFFFFF000 it
terminates with exactly one line and one query (for the page containing
a); for an a above 0xFFFFF000 (necessarily unaligned) the uint32 loop
variable wraps past the end bound and the loop never terminates. -/
theorem showmappings_equal_bounds_count (a : Nat) (pt : Nat → Option Nat)
    (ha : a < UINT32_MOD) :
    (a % PGSIZE = 0 → ∀ fuel, 1 ≤ fuel →
        mon_showmappings fuel 3 a a pt = Option.some ⟨[], [], [], 0⟩) ∧
    (a % PGSIZE ≠ 0 → a ≤ 0xFFFFF000 → ∀ fuel, 2 ≤ fuel →
        mon_showmappings fuel 3 a a pt
          = Option.some ⟨[], [pageLine pt (ROUNDDOWN a PGSIZE)], [ROUNDDOWN a PGSIZE], 0⟩) ∧
    (0xFFFFF000 < a → ∀ fuel, mon_showmappings fuel 3 a a pt = Option.none) := by
  refine ⟨?_, ?_, ?_⟩
  · intro hal fuel hfuel
    have hda : ROUNDDOWN a PGSIZE = a := by
      simp only [ROUNDDOWN, PGSIZE] at *
      omega
    have hlv : loopVAs fuel a a = Option.some (queriedVAs a a) := by
      refine loopVAs_no_wrap fuel a a ?_ ?_
      · simp only [PGSIZE] at hal
        simp only [UINT32_MOD] at ha
        omega
      · simp only [PGSIZE]
        omega
    have hq : queriedVAs a a = [] := by
      rw [queriedVAs, if_neg (lt_irrefl a)]
    simp [mon_showmappings, hda, hlv, hq]
  · intro hal htop fuel hfuel
    have hp1 : ROUNDDOWN a PGSIZE < a := by
      simp only [ROUNDDOWN, PGSIZE] at *
      omega
    have hp2 : ¬ ROUNDDOWN a PGSIZE + PGSIZE < a := by
      simp only [ROUNDDOWN, PGSIZE] at *
      omega
    have hq : queriedVAs (ROUNDDOWN a PGSIZE) a = [ROUNDDOWN a PGSIZE] := by
      rw [queriedVAs, if_pos hp1, queriedVAs, if_neg hp2]
    have hcnt : (a - ROUNDDOWN a PGSIZE + (PGSIZE - 1)) / PGSIZE < fuel := by
      simp only [ROUNDDOWN, PGSIZE] at *
      omega
    have hlv : loopVAs fuel (ROUNDDOWN a PGSIZE) a
        = Option.some [ROUNDDOWN a PGSIZE] := by
      rw [loopVAs_no_wrap fuel (ROUNDDOWN a PGSIZE) a htop hcnt, hq]
    simp [mon_showmappings, hlv]
  · intro htop fuel
    have hlv : loopVAs fuel (ROUNDDOWN a PGSIZE) a = Option.none := by
      refine loopVAs_wrap_diverges fuel (ROUNDDOWN a PGSIZE) a ?_ ?_ htop ha
      · simp only [ROUNDDOWN, PGSIZE]
        omega
      · simp only [ROUNDDOWN, PGSIZE, UINT32_MOD] at *
        omega
    simp [mon_showmappings, hlv]

/-- Claim C4 witness: the unaligned address 0x1 (second branch of the
amended trichotomy, exercised at fuel 2 by the counterexample above, and
the aligned and diverging branches stated alongside it). -/
theorem showmappings_equal_bounds_count_witness :
    (1 : Nat) < UINT32_MOD ∧
    (((1 : Nat) % PGSIZE = 0 → ∀ fuel, 1 ≤ fuel →
        mon_showmappings fuel 3 1 1 (fun _ => Option.none)
          = Option.some ⟨[], [], [], 0⟩) ∧
     ((1 : Nat) % PGSIZE ≠ 0 → (1 : Nat) ≤ 0xFFFFF000 → ∀ fuel, 2 ≤ fuel →
        mon_showmappings fuel 3 1 1 (fun _ => Option.none)
          = Option.some ⟨[], [pageLine (fun _ => Option.none) (ROUNDDOWN 1 PGSIZE)],
                         [ROUNDDOWN 1 PGSIZE], 0⟩) ∧
     (0xFFFFF000 < (1 : Nat) → ∀ fuel,
        mon_showmappings fuel 3 1 1 (fun _ => Option.none) = Option.none)) :=
  ⟨by decide, showmappings_equal_bounds_count 1 (fun _ => Option.none) (by decide)⟩

/-- Claim C5 counterexample: for start address 0 and end address 1 the
code terminates having emitted one per-page line (for page 0), while the
claimed count (pageFloor(end) - pageFloor(start)) / pageSize is 0; the
claimed formula is therefore false. -/
theorem showmappings_count_formula_cex :
    mon_showmappings 2 3 0 1 (fun _ => Option.none)
      = Option.some ⟨[], [MapLine.notMapped 0], [0], 0⟩ ∧
    (ROUNDDOWN 1 PGSIZE - ROUNDDOWN 0 PGSIZE) / PGSIZE = 0 := by decide

/-- Claim C5 (amended): for every pair of uint32 addresses with
start ≤ end (the range accepted by the validation): when
end ≤ 0xFFFFF000, showmappings terminates once the fuel exceeds the page
count and emits exactly one line per page in the half-open interval from
pageFloor(start) to pageCeil(end) — the number of lines equals
(pageCeil(end) - pageFloor(start)) / pageSize, the rounding-up being
forced by the loop bound comparing the raw, unrounded end address; when
0xFFFFF000 < end, the uint32 loop variable wraps past the end bound and
the loop never terminates, emitting no finite line count at all. -/
theorem showmappings_line_count (s e : Nat) (pt : Nat → Option Nat)
    (hse : s ≤ e) (he32 : e < UINT32_MOD) :
    (e ≤ 0xFFFFF000 →
      ∀ fuel, (ROUNDUP e PGSIZE - ROUNDDOWN s PGSIZE) / PGSIZE < fuel →
        mon_showmappings fuel 3 s e pt
          = Option.some ⟨[], (queriedVAs (ROUNDDOWN s PGSIZE) e).map (pageLine pt),
                         queriedVAs (ROUNDDOWN s PGSIZE) e, 0⟩ ∧
        (queriedVAs (ROUNDDOWN s PGSIZE) e).length
          = (ROUNDUP e PGSIZE - ROUNDDOWN s PGSIZE) / PGSIZE) ∧
    (0xFFFFF000 < e → ∀ fuel, mon_showmappings fuel 3 s e pt = Option.none) := by
  have hcount : (e - ROUNDDOWN s PGSIZE + (PGSIZE - 1)) / PGSIZE
      = (ROUNDUP e PGSIZE - ROUNDDOWN s PGSIZE) / PGSIZE := by
    simp only [ROUNDUP, ROUNDDOWN, PGSIZE]
    omega
  have hne : ¬ e < s := by omega
  constructor
  · intro he fuel hfuel
    have hlv : loopVAs fuel (ROUNDDOWN s PGSIZE) e
        = Option.some (queriedVAs (ROUNDDOWN s PGSIZE) e) := by
      refine loopVAs_no_wrap fuel (ROUNDDOWN s PGSIZE) e he ?_
      omega
    constructor
    · simp [mon_showmappings, hne, hlv]
    · rw [queriedVAs_length, hcount]
  · intro htop fuel
    have hlv : loopVAs fuel (ROUNDDOWN s PGSIZE) e = Option.none := by
      refine loopVAs_wrap_diverges fuel (ROUNDDOWN s PGSIZE) e ?_ ?_ htop he32
      · simp only [ROUNDDOWN, PGSIZE]
        omega
      · simp only [ROUNDDOWN, PGSIZE, UINT32_MOD] at *
        omega
    simp [mon_showmappings, hne, hlv]

/-- Claim C5 witness: start 0, end 1 gives (4096 - 0) / 4096 = 1 line
once the fuel exceeds 1 (and the diverging branch is vacuous there). -/
theorem showmappings_line_count_witness :
    ((0 : Nat) ≤ 1 ∧ (1 : Nat) < UINT32_MOD) ∧
    (((1 : Nat) ≤ 0xFFFFF000 →
      ∀ fuel, (ROUNDUP 1 PGSIZE - ROUNDDOWN 0 PGSIZE) / PGSIZE < fuel →
        mon_showmappings fuel 3 0 1 (fun _ => Option.none)
          = Option.some ⟨[], (queriedVAs (ROUNDDOWN 0 PGSIZE) 1).map
                               (pageLine (fun _ => Option.none)),
                         queriedVAs (ROUNDDOWN 0 PGSIZE) 1, 0⟩ ∧
        (queriedVAs (ROUNDDOWN 0 PGSIZE) 1).length
          = (ROUNDUP 1 PGSIZE - ROUNDDOWN 0 PGSIZE) / PGSIZE) ∧
     (0xFFFFF000 < (1 : Nat) → ∀ fuel,
        mon_showmappings fuel 3 0 1 (fun _ => Option.none) = Option.none)) :=
  ⟨⟨by decide, by decide⟩,
   showmappings_line_count 0 1 (fun _ => Option.none) (by decide) (by decide)⟩

/-- Claim C6: showmappings invoked with exactly two address arguments
whose end is strictly below the start prints the range error message,
emits no per-page line, performs no page-table query, and returns the
error result -1 (an ordinary return, not a fault); the rejection happens
before the loop, so it holds for every fuel. -/
theorem showmappings_rejects_reversed_range (s e : Nat) (pt : Nat → Option Nat)
    (h : e < s) (fuel : Nat) :
    mon_showmappings fuel 3 s e pt
      = Option.some ⟨[ConsoleMsg.rangeError], [], [], -1⟩ := by
  simp [mon_showmappings, h]

/-- Claim C6 witness: start 2, end 1, fuel 0 (the error path runs no
loop iteration). -/
theorem showmappings_rejects_reversed_range_witness :
    (1 : Nat) < 2 ∧
    mon_showmappings 0 3 2 1 (fun _ => Option.none)
      = Option.some ⟨[ConsoleMsg.rangeError], [], [], -1⟩ :=
  ⟨by decide, showmappings_rejects_reversed_range 2 1 (fun _ => Option.none) (by decide) 0⟩

/-- Claim C7: with a supported entry trap reason, mon_continue resumes the
saved context; it clears bit 8 of the saved EFLAGS (leaving every other
bit of the 32-bit register unchanged) exactly when the trap reason is the
single-step trap T_DEBUG, and leaves the context entirely unchanged when
the trap reason is the breakpoint trap T_BRKPT. -/
theorem mon_continue_trace_flag (t : Trapframe)
    (hsup : t.tf_trapno = T_BRKPT ∨ t.tf_trapno = T_DEBUG) :
    ∃ u : Trapframe, mon_continue 1 (Option.some t) = CtrlResult.resumed u ∧
      u.tf_trapno = t.tf_trapno ∧
      (t.tf_trapno = T_DEBUG →
        u.tf_eflags.testBit 8 = false ∧
        ∀ i : Nat, i < 32 → i ≠ 8 → u.tf_eflags.testBit i = t.tf_eflags.testBit i) ∧
      (t.tf_trapno = T_BRKPT → u = t) := by
  rcases hsup with hb | hd
  · refine ⟨t, ?_, rfl, ?_, fun _ => rfl⟩
    · simp [mon_continue, hb, T_BRKPT, T_DEBUG]
    · intro hdbg
      rw [hb] at hdbg
      simp [T_BRKPT, T_DEBUG] at hdbg
  · refine ⟨⟨t.tf_trapno, t.tf_eflags &&& (0xFFFFFFFF ^^^ (1 <<< 8))⟩, ?_, rfl, ?_, ?_⟩
    · simp [mon_continue, hd, T_DEBUG, T_BRKPT]
    · intro _
      constructor
      · rw [Nat.testBit_land]
        have hm : Nat.testBit (0xFFFFFFFF ^^^ (1 <<< 8)) 8 = false := by decide
        rw [hm, Bool.and_false]
      · intro i h32 h8
        rw [Nat.testBit_land]
        have hm : Nat.testBit (0xFFFFFFFF ^^^ (1 <<< 8)) i = true := by
          interval_cases i <;> first | decide | (exact absurd rfl h8)
        rw [hm, Bool.and_true]
    · intro hbk
      rw [hd] at hbk
      simp [T_BRKPT, T_DEBUG] at hbk

/-- Claim C7 witness: a context stopped by the single-step trap with the
trace flag set. -/
theorem mon_continue_trace_flag_witness :
    ((⟨T_DEBUG, 256⟩ : Trapframe).tf_trapno = T_BRKPT ∨
     (⟨T_DEBUG, 256⟩ : Trapframe).tf_trapno = T_DEBUG) ∧
    (∃ u : Trapframe,
      mon_continue 1 (Option.some ⟨T_DEBUG, 256⟩) = CtrlResult.resumed u ∧
      u.tf_trapno = (⟨T_DEBUG, 256⟩ : Trapframe).tf_trapno ∧
      ((⟨T_DEBUG, 256⟩ : Trapframe).tf_trapno = T_DEBUG →
        u.tf_eflags.testBit 8 = false ∧
        ∀ i : Nat, i < 32 → i ≠ 8 →
          u.tf_eflags.testBit i = (⟨T_DEBUG, 256⟩ : Trapframe).tf_eflags.testBit i) ∧
      ((⟨T_DEBUG, 256⟩ : Trapframe).tf_trapno = T_BRKPT → u = ⟨T_DEBUG, 256⟩)) :=
  ⟨Or.inr rfl, mon_continue_trace_flag ⟨T_DEBUG, 256⟩ (Or.inr rfl)⟩

/-- Claim C8: with a supported entry trap reason (breakpoint or
single-step), mon_si resumes the saved context with bit 8 of the saved
EFLAGS set and every other bit unchanged, regardless of which of the two
supported reasons applies. -/
theorem mon_si_sets_trace_flag (t : Trapframe)
    (hsup : t.tf_trapno = T_BRKPT ∨ t.tf_trapno = T_DEBUG) :
    ∃ u : Trapframe, mon_si 1 (Option.some t) = CtrlResult.resumed u ∧
      u.tf_trapno = t.tf_trapno ∧
      u.tf_eflags.testBit 8 = true ∧
      ∀ i : Nat, i ≠ 8 → u.tf_eflags.testBit i = t.tf_eflags.testBit i := by
  refine ⟨⟨t.tf_trapno, t.tf_eflags ||| (0x1 <<< 8)⟩, ?_, rfl, ?_, ?_⟩
  · rcases hsup with h | h <;> simp [mon_si, h, T_BRKPT, T_DEBUG]
  · rw [Nat.testBit_lor]
    have hm : Nat.testBit (0x1 <<< 8) 8 = true := by decide
    rw [hm, Bool.or_true]
  · intro i h8
    rw [Nat.testBit_lor]
    have hpow : (0x1 <<< 8 : Nat) = 2 ^ 8 := by decide
    rw [hpow, Nat.testBit_two_pow_of_ne (fun he => h8 he.symm), Bool.or_false]

/-- Claim C8 witness: a context stopped by the breakpoint trap with a
cleared flags register. -/
theorem mon_si_sets_trace_flag_witness :
    ((⟨T_BRKPT, 0⟩ : Trapframe).tf_trapno = T_BRKPT ∨
     (⟨T_BRKPT, 0⟩ : Trapframe).tf_trapno = T_DEBUG) ∧
    (∃ u : Trapframe,
      mon_si 1 (Option.some ⟨T_BRKPT, 0⟩) = CtrlResult.resumed u ∧
      u.tf_trapno = (⟨T_BRKPT, 0⟩ : Trapframe).tf_trapno ∧
      u.tf_eflags.testBit 8 = true ∧
      ∀ i : Nat, i ≠ 8 →
        u.tf_eflags.testBit i = (⟨T_BRKPT, 0⟩ : Trapframe).tf_eflags.testBit i) :=
  ⟨Or.inl rfl, mon_si_sets_trace_flag ⟨T_BRKPT, 0⟩ (Or.inl rfl)⟩

/-- Claim C9 counterexample: continue and si invoked with an extra
argument (argc = 2) and a saved context whose trap reason is 14 (page
fault, neither breakpoint nor single-step) do not panic: the argc check
runs first, so they print the usage message and return -1 normally. -/
theorem ctrl_usage_path_no_panic :
    mon_continue 2 (Option.some ⟨14, 0⟩)
      = CtrlResult.ret [ConsoleMsg.usageContinue] (-1) ∧
    mon_si 2 (Option.some ⟨14, 0⟩)
      = CtrlResult.ret [ConsoleMsg.usageSi] (-1) ∧
    (∀ site : PanicSite, mon_continue 2 (Option.some ⟨14, 0⟩)
      ≠ CtrlResult.panicked site) := by
  refine ⟨by decide, by decide, ?_⟩
  intro site
  cases site <;> decide

/-- Claim C9 (amended): continue and si invoked without extra arguments
(argc = 1) on a saved context whose trap reason is neither the breakpoint
trap nor the single-step trap panic (halt the system) rather than
returning normally to the dispatcher loop. -/
theorem ctrl_unexpected_trap_panics (t : Trapframe)
    (hb : t.tf_trapno ≠ T_BRKPT) (hd : t.tf_trapno ≠ T_DEBUG) :
    mon_continue 1 (Option.some t) = CtrlResult.panicked PanicSite.monContinue ∧
    mon_si 1 (Option.some t) = CtrlResult.panicked PanicSite.monSi := by
  constructor
  · simp [mon_continue, hb, hd]
  · simp [mon_si, hb, hd]

/-- Claim C9 witness: trap reason 14 (page fault). -/
theorem ctrl_unexpected_trap_panics_witness :
    ((⟨14, 0⟩ : Trapframe).tf_trapno ≠ T_BRKPT ∧
     (⟨14, 0⟩ : Trapframe).tf_trapno ≠ T_DEBUG) ∧
    (mon_continue 1 (Option.some ⟨14, 0⟩)
        = CtrlResult.panicked PanicSite.monContinue ∧
     mon_si 1 (Option.some ⟨14, 0⟩) = CtrlResult.panicked PanicSite.monSi) :=
  ⟨⟨by decide, by decide⟩,
   ctrl_unexpected_trap_panics ⟨14, 0⟩ (by decide) (by decide)⟩

/-- Claim C10: invoked with argc = 1 and a NULL saved context, both
continue and si dereference the NULL context pointer (the trap number is
read through the pointer before any null check — there is none), while
the monitor entry path itself guards its own trapframe use with a NULL
check and therefore permits entering the loop with a NULL context. -/
theorem ctrl_null_context_deref :
    mon_continue 1 Option.none = CtrlResult.nullDeref ∧
    mon_si 1 Option.none = CtrlResult.nullDeref ∧
    monitorPrintsTrapframe Option.none = false := by decide
